import Mathlib

/-!
# Verification of the pptx text/comment extractor

Shallow embedding of `ppt-xtract.py`, centred on `extract_text_from_pptx`
(lines 56-109 of the source).  The python-pptx / zipfile / ElementTree
library surface is modelled by the `Package` structure below: the extractor
only ever queries
  * the ordered list of slides (shapes with their text frames, notes),
  * per slide, the relationship part `ppt/slides/_rels/slide{i}.xml.rels`
    (present in the archive or not; XML parse succeeding or not; the list
    of `Relationship/@Target` strings), and
  * comment parts by resolved path (present or not; parse result; the list
    of `p:cm` comment nodes).

Python exceptions raised inside the single `try` block that wraps the whole
comment scan are modelled by a `Bool` success flag threaded through the
scan; the `except` clause corresponds to discarding that flag after
printing a warning, keeping whatever state had been accumulated.
-/

/-- One `p:cm` comment node, as seen through the two ElementTree queries the
source performs on it (line 81-82).
`textElem`: result of `comment.find('.//p:text')` — `none` when the element
is absent (so `.text` would raise `AttributeError`), `some t` when present
with `t` its `.text` (`none` for an empty element).
`authorElem`: result of `comment.find('.//p:authorLst/p:author')` — `none`
when no author element exists (absent or empty author list, so `.get` would
raise), `some a` with `a` the value of the `name` attribute if present. -/
structure CommentNode where
  textElem : Option (Option String)
  authorElem : Option (Option String)
deriving DecidableEq, Repr

/-- One shape of a slide's shape tree: whether it carries a text frame, its
vertical position `top` (EMU), and the `.text` of each of its paragraphs. -/
structure Shape where
  has_text_frame : Bool
  top : Int
  paragraphs : List String
deriving DecidableEq, Repr

/-- One slide: its shapes in document order, and its speaker notes
(`none` when `slide.has_notes_slide` is false, otherwise the text of the
notes text frame). -/
structure Slide where
  shapes : List Shape
  notes : Option String
deriving DecidableEq, Repr

/-- The opened package.  `relFile i` models the archive lookup of
`ppt/slides/_rels/slide{i}.xml.rels`: `none` when the name is not in the
zip's namelist, `some (.error ())` when `ET.parse` raises on it, and
`some (.ok targets)` for the list of `Relationship/@Target` attributes.
`commentFile p` models the same for a comment part at path `p`, with the
parsed list of `p:cm` nodes on success. -/
structure Package where
  slides : List Slide
  relFile : Nat → Option (Except Unit (List String))
  commentFile : String → Option (Except Unit (List CommentNode))

/-! ## String helpers used by the source -/

/-- Prefix test on character lists. -/
def isPre : List Char → List Char → Bool
  | [], _ => true
  | _ :: _, [] => false
  | a :: as, b :: bs => a == b && isPre as bs

/-- Substring search on character lists. -/
def hasSub (needle : List Char) : List Char → Bool
  | [] => needle.isEmpty
  | b :: bs => isPre needle (b :: bs) || hasSub needle bs

/-- Python's `needle in hay` substring test on strings (line 74). -/
def containsSub (needle hay : String) : Bool :=
  hasSub needle.data hay.data

/-- Everything after the last `/`, accumulator-based. -/
def basenameAux (cur : List Char) : List Char → List Char
  | [] => cur.reverse
  | c :: cs => if c == '/' then basenameAux [] cs else basenameAux (c :: cur) cs

/-- `os.path.basename` for POSIX paths (line 75). -/
def basename (s : String) : String :=
  ⟨basenameAux [] s.data⟩

/-- The whitespace characters stripped by Python's `str.strip()` (restricted
to the ASCII range; the strings this program builds contain no exotic
whitespace). -/
def isPySpace (c : Char) : Bool :=
  c == ' ' || c == '\t' || c == '\n' || c == '\r' || c == '\x0b' || c == '\x0c'

/-- Python's `str.strip()`: drop whitespace from both ends. -/
def pyStrip (s : String) : String :=
  ⟨((s.data.dropWhile isPySpace).reverse.dropWhile isPySpace).reverse⟩

/-- Python's `sep.join(parts)`. -/
def joinWith (sep : String) : List String → String
  | [] => ""
  | [t] => t
  | t :: rest => t ++ sep ++ joinWith sep rest

/-! ## The comment scan (source lines 64-85) -/

/-- Reading one `p:cm` node (lines 81-82).  Returns the `(author, text)`
pair when both ElementTree lookups find an element, applying the source's
defaults: `comment.find('.//p:text').text or ""` and
`.get('name', 'Unknown Author')`.  Returns `none` when either `find`
returns `None`, in which case the subsequent attribute access raises. -/
def parsePair (c : CommentNode) : Option (String × String) :=
  match c.textElem with
  | none => none
  | some t =>
    match c.authorElem with
    | none => none
    | some a => some (a.getD "Unknown Author", t.getD "")

/-- The string appended to the slide's comment list: `f"{author}: {text}"`
(line 83). -/
def renderPair (p : String × String) : String :=
  p.1 ++ ": " ++ p.2

/-- The loop over the `p:cm` nodes of one comment part (lines 80-83),
appending to the slide's current comment list.  A node on which an
ElementTree lookup fails raises, aborting with the entries appended so
far; the `Bool` is the no-exception flag. -/
def processNodes : List CommentNode → List String → List String × Bool
  | [], acc => (acc, true)
  | c :: rest, acc =>
    match parsePair c with
    | none => (acc, false)
    | some p => processNodes rest (acc ++ [renderPair p])

/-- The loop over a slide's relationship targets (lines 73-83): for each
target containing `"comments"`, resolve `ppt/comments/` ++ basename and, if
that name is in the archive, parse it (a parse failure raises) and process
its nodes. -/
def processTargets (zf : Package) : List String → List String → List String × Bool
  | [], cur => (cur, true)
  | t :: rest, cur =>
    if containsSub "comments" t then
      match zf.commentFile ("ppt/comments/" ++ basename t) with
      | none => processTargets zf rest cur
      | some (Except.error _) => (cur, false)
      | some (Except.ok nodes) =>
        match processNodes nodes cur with
        | (cur', true) => processTargets zf rest cur'
        | (cur', false) => (cur', false)
    else processTargets zf rest cur

/-- The body of one iteration of the slide loop (lines 69-83): look up the
slide's rel file; absent means no comments for the slide, a parse failure
raises, otherwise process its relationship targets. -/
def scanSlide (zf : Package) (i : Nat) : List String × Bool :=
  match zf.relFile i with
  | none => ([], true)
  | some (Except.error _) => ([], false)
  | some (Except.ok targets) => processTargets zf targets []

/-- The loop `for i in range(1, len(prs.slides) + 1)` (line 68), threading
the `all_comments` dict as an association list.  The dict entry for a slide
is recorded unconditionally; the source only creates it via `setdefault`
when a comment part is found, but the final read `all_comments.get(k, [])`
makes an absent key and an empty list indistinguishable. -/
def scanSlides (zf : Package) : List Nat → List (Nat × List String) →
    List (Nat × List String) × Bool
  | [], acc => (acc, true)
  | i :: rest, acc =>
    match scanSlide zf i with
    | (cur, true) => scanSlides zf rest (acc ++ [(i, cur)])
    | (cur, false) => (acc ++ [(i, cur)], false)

/-- The `all_comments` value after the `try`/`except` (lines 64-85): when
comments are included, the scan runs over slides `1..N` and its result is
kept whether or not an exception was absorbed; otherwise the dict stays
empty. -/
def allComments (zf : Package) (include_comments : Bool) :
    List (Nat × List String) :=
  if include_comments then
    (scanSlides zf (List.range' 1 zf.slides.length) []).1
  else []

/-- Whether the `except` clause ran, i.e. the warning
`"Warning: Could not extract comments. ..."` was printed to stderr
(lines 84-85). -/
def commentWarning (zf : Package) (include_comments : Bool) : Bool :=
  include_comments && !(scanSlides zf (List.range' 1 zf.slides.length) []).2

/-! ## Body text (source lines 87-105) -/

/-- The comparison `sorted` uses through `key=lambda s: s.top` (line 89). -/
def topLe (a b : Shape) : Prop :=
  a.top ≤ b.top

instance : DecidableRel topLe := fun a b => Int.decLe a.top b.top

/-- `sorted([s for s in slide.shapes if s.has_text_frame], key=lambda s: s.top)`
(line 89).  Python's `sorted` is specified as a stable sort on the key; any
stable sort computes the same list, so it is modelled by the stable
`List.insertionSort`. -/
def orderedShapes (slide : Slide) : List Shape :=
  (slide.shapes.filter (fun s => s.has_text_frame)).insertionSort topLe

/-- Per-shape text (lines 92-98): the texts of the shape's paragraphs,
dropping empty ones, joined with the `"  \n"` line-break marker. -/
def shapeText (s : Shape) : String :=
  joinWith "  \n" (s.paragraphs.filter (fun t => t ≠ ""))

/-- The final `slide_text` (lines 91-105): per-shape texts in reading
order, the speaker-notes block appended when the slide has notes whose
`strip()` is non-empty, empty entries filtered out, joined with blank
lines, and the result stripped. -/
def bodyText (slide : Slide) : String :=
  let parts := (orderedShapes slide).map shapeText
  let parts :=
    match slide.notes with
    | some notes_text =>
      if pyStrip notes_text ≠ "" then
        parts ++ ["\n--- Speaker Notes ---\n" ++ notes_text]
      else parts
    | none => parts
  pyStrip (joinWith "\n\n" (parts.filter (fun t => t ≠ "")))

/-! ## The extractor (source lines 56-109) -/

/-- `extract_text_from_pptx`: the list of `(slide_number, slide_text,
comments)` tuples, one per slide in order, with `slide_number = i + 1` for
the `i`-th slide and the comments looked up via
`all_comments.get(slide_number, [])` (lines 87-107). -/
def extract_text_from_pptx (zf : Package) (include_comments : Bool := true) :
    List (Nat × String × List String) :=
  let all_comments := allComments zf include_comments
  zf.slides.enum.map (fun p =>
    (p.1 + 1, bodyText p.2, (all_comments.lookup (p.1 + 1)).getD []))

/-- Modelled from the spec: the fatal error raised when the input file is
not a valid ZIP package (corrupt ZIP, wrong file type).  The raising code
is `Presentation(pptx_file)` (line 61), a python-pptx library call whose
body is outside this repository; the spec names the condition
`FormatError`. -/
inductive FormatError where
  | formatError (msg : String)
deriving DecidableEq, Repr

/-- Modelled from the spec: opening the package either fails with a
`FormatError` or yields the parsed `Package`.  `extract_text_from_pptx`
performs this call on line 61, before and outside the `try` block of the
comment scan, so the failure propagates to the caller unhandled; on
success the extraction below is total. -/
def runExtraction (opened : Except FormatError Package)
    (include_comments : Bool) :
    Except FormatError (List (Nat × String × List String)) :=
  match opened with
  | Except.error e => Except.error e
  | Except.ok zf => Except.ok (extract_text_from_pptx zf include_comments)

/-! ## Helper lemmas -/

instance : IsTotal Shape topLe := ⟨fun a b => Int.le_total a.top b.top⟩

instance : IsTrans Shape topLe := ⟨fun _ _ _ h h' => le_trans h h'⟩

theorem joinWith_nil (sep : String) : joinWith sep [] = "" := rfl

theorem pyStrip_empty : pyStrip "" = "" := rfl

/-- Shapes in the sorted reading order all come from the slide's shape list
and carry a text frame. -/
theorem mem_orderedShapes {slide : Slide} {sh : Shape}
    (h : sh ∈ orderedShapes slide) : sh ∈ slide.shapes ∧ sh.has_text_frame := by
  have h' : sh ∈ slide.shapes.filter (fun s => s.has_text_frame) :=
    (List.mem_insertionSort topLe).1 h
  have := List.mem_filter.1 h'
  exact ⟨this.1, by simpa using this.2⟩

theorem map_fst_succ_enumFrom {α : Type _} (l : List α) :
    ∀ n : Nat, (l.enumFrom n).map (fun p => p.1 + 1) = List.range' (n + 1) l.length := by
  induction l with
  | nil => intro n; rfl
  | cons a as ih =>
    intro n
    simp only [List.enumFrom, List.map_cons, List.length_cons, List.range'_succ, ih]


/-- C1: for every slide, the shapes considered for `body_text` are exactly
those carrying a text frame (the reading order is a permutation of the
text-frame shapes in document order), the reading order is sorted by
vertical position top-to-bottom, and the sort is stable: for every vertical
position, the shapes at that position appear in their original document
order. -/
theorem orderedShapes_perm_sorted_stable (slide : Slide) :
    List.Perm (orderedShapes slide) (slide.shapes.filter (fun s => s.has_text_frame)) ∧
    (orderedShapes slide).Pairwise topLe ∧
    ∀ t : Int, (orderedShapes slide).filter (fun s => s.top = t) =
      (slide.shapes.filter (fun s => s.has_text_frame)).filter (fun s => s.top = t) := by
  refine ⟨List.perm_insertionSort topLe _, List.sorted_insertionSort topLe _, ?_⟩
  intro t
  set l := slide.shapes.filter (fun s => s.has_text_frame) with hl
  set c := l.filter (fun s => s.top = t) with hc
  have hmem : ∀ sh ∈ c, sh.top = t := by
    intro sh hsh
    have := (List.mem_filter.1 hsh).2
    simpa using this
  have hpair : c.Pairwise topLe := by
    apply List.pairwise_of_forall_mem_list
    intro a ha b hb
    show a.top ≤ b.top
    rw [hmem a ha, hmem b hb]
  have hsubl : List.Sublist c (List.insertionSort topLe l) :=
    List.sublist_insertionSort hpair (List.filter_sublist l)
  have hcf : c.filter (fun s => s.top = t) = c :=
    List.filter_eq_self.2 (fun a ha => by simp [hmem a ha])
  have hsubf : List.Sublist c ((List.insertionSort topLe l).filter (fun s => s.top = t)) := by
    have := hsubl.filter (fun s => decide (s.top = t))
    rwa [hcf] at this
  have hperm : List.Perm ((List.insertionSort topLe l).filter (fun s => s.top = t)) c :=
    (List.perm_insertionSort topLe l).filter _
  exact (hsubf.eq_of_length hperm.length_eq.symm).symm

/-- C2: the extraction returns exactly one record per slide, in slide
order, with `slide_number` values forming the contiguous strictly
increasing range `1..N` where `N` is the package's slide count. -/
theorem extract_one_record_per_slide (zf : Package) (ic : Bool) :
    (extract_text_from_pptx zf ic).length = zf.slides.length ∧
    (extract_text_from_pptx zf ic).map (fun r => r.1) =
      List.range' 1 zf.slides.length := by
  constructor
  · simp [extract_text_from_pptx]
  · unfold extract_text_from_pptx
    simp only [List.map_map]
    have h := map_fst_succ_enumFrom zf.slides 0
    simpa [List.enum_eq_enumFrom, Function.comp] using h

/-- C7: disabling comment inclusion yields the empty comment list for every
slide, while slide numbers and body text are identical to extraction with
comments enabled. -/
theorem extract_without_comments (zf : Package) :
    (∀ r ∈ extract_text_from_pptx zf false, r.2.2 = []) ∧
    (extract_text_from_pptx zf false).map (fun r => (r.1, r.2.1)) =
      (extract_text_from_pptx zf true).map (fun r => (r.1, r.2.1)) := by
  constructor
  · intro r hr
    simp only [extract_text_from_pptx, allComments, if_neg Bool.false_ne_true,
      List.mem_map] at hr
    obtain ⟨p, -, rfl⟩ := hr
    rfl
  · show (List.map _ (List.map _ zf.slides.enum)) = (List.map _ (List.map _ zf.slides.enum))
    rw [List.map_map, List.map_map]
    rfl

/-- C5: for a slide without speaker notes, `body_text` is assembled by
joining each shape's non-empty paragraphs with the line-break marker,
joining the per-shape texts with a blank-line separator while filtering
out shapes that produced no text, and stripping the result; in particular
a slide whose shape "Title" sits above shape "Subtitle" (even when the
lower shape was created first) yields `"Title\n\nSubtitle"`. -/
theorem bodyText_assembly (slide : Slide) (h : slide.notes = none) :
    bodyText slide =
      pyStrip (joinWith "\n\n"
        (((orderedShapes slide).map
            (fun sh => joinWith "  \n" (sh.paragraphs.filter (fun t => t ≠ "")))).filter
          (fun t => t ≠ ""))) ∧
    bodyText
        { shapes := [{ has_text_frame := true, top := 200, paragraphs := ["Subtitle"] },
                     { has_text_frame := true, top := 100, paragraphs := ["Title"] }],
          notes := none } = "Title\n\nSubtitle" := by
  constructor
  · unfold bodyText
    rw [h]
    rfl
  · decide

/-- C5 witness: the general assembly equation applied to the concrete
two-shape slide. -/
theorem bodyText_assembly_witness :
    bodyText
        { shapes := [{ has_text_frame := true, top := 200, paragraphs := ["Subtitle"] },
                     { has_text_frame := true, top := 100, paragraphs := ["Title"] }],
          notes := none } =
      pyStrip (joinWith "\n\n"
        (((orderedShapes
              { shapes := [{ has_text_frame := true, top := 200, paragraphs := ["Subtitle"] },
                           { has_text_frame := true, top := 100, paragraphs := ["Title"] }],
                notes := none }).map
            (fun sh => joinWith "  \n" (sh.paragraphs.filter (fun t => t ≠ "")))).filter
          (fun t => t ≠ ""))) :=
  (bodyText_assembly
    { shapes := [{ has_text_frame := true, top := 200, paragraphs := ["Subtitle"] },
                 { has_text_frame := true, top := 100, paragraphs := ["Title"] }],
      notes := none } rfl).1

/-- C8: a slide whose text-frame shapes all have only blank paragraphs (in
particular a slide with no text-bearing shapes at all) and whose notes are
absent or blank yields `body_text = ""` — the empty string, not a string of
blank separators — and the slide still appears at its position in the
output sequence. -/
theorem extract_blank_slide (zf : Package) (ic : Bool) (i : Nat) (slide : Slide)
    (hs : zf.slides[i]? = some slide)
    (hshapes : ∀ sh ∈ slide.shapes, sh.has_text_frame = true →
      ∀ t ∈ sh.paragraphs, t = "")
    (hnotes : ∀ s, slide.notes = some s → pyStrip s = "") :
    bodyText slide = "" ∧
    ∃ cs, (extract_text_from_pptx zf ic)[i]? = some (i + 1, "", cs) := by
  have hbody : bodyText slide = "" := by
    have hfilter :
        (List.map shapeText (orderedShapes slide)).filter (fun t => t ≠ "") = [] := by
      apply List.filter_eq_nil_iff.2
      intro a ha
      simp only [List.mem_map] at ha
      obtain ⟨sh, hsh, rfl⟩ := ha
      obtain ⟨hmem, htf⟩ := mem_orderedShapes hsh
      have hblank : sh.paragraphs.filter (fun t => t ≠ "") = [] := by
        apply List.filter_eq_nil_iff.2
        intro t ht
        simp [hshapes sh hmem htf t ht]
      have hst : shapeText sh = "" := by
        unfold shapeText
        rw [hblank]
        rfl
      simp [hst]
    unfold bodyText
    cases hn : slide.notes with
    | none => simp only [hfilter]; rfl
    | some s =>
      have := hnotes s hn
      simp only [this, ne_eq, not_true_eq_false, if_false, hfilter]
      rfl
  refine ⟨hbody, ((allComments zf ic).lookup (i + 1)).getD [], ?_⟩
  unfold extract_text_from_pptx
  rw [List.getElem?_map, List.enum_eq_enumFrom, List.getElem?_enumFrom, hs]
  simp [hbody]

/-- A two-slide package whose second slide holds only an image shape and a
text shape with blank paragraphs, used to instantiate the blank-slide
theorem. -/
def blankDemoPkg : Package :=
  { slides := [{ shapes := [{ has_text_frame := true, top := 0, paragraphs := ["Hello"] }],
                 notes := none },
               { shapes := [{ has_text_frame := false, top := 0, paragraphs := ["IMG"] },
                            { has_text_frame := true, top := 50, paragraphs := ["", ""] }],
                 notes := none }],
    relFile := fun _ => none,
    commentFile := fun _ => none }

/-- C8 witness: the blank-slide theorem applied to the second slide of
`blankDemoPkg`. -/
theorem extract_blank_slide_witness :
    bodyText { shapes := [{ has_text_frame := false, top := 0, paragraphs := ["IMG"] },
                          { has_text_frame := true, top := 50, paragraphs := ["", ""] }],
               notes := none } = "" ∧
    ∃ cs, (extract_text_from_pptx blankDemoPkg true)[1]? = some (2, "", cs) :=
  extract_blank_slide blankDemoPkg true 1
    { shapes := [{ has_text_frame := false, top := 0, paragraphs := ["IMG"] },
                 { has_text_frame := true, top := 50, paragraphs := ["", ""] }],
      notes := none }
    rfl (by decide) (fun s h => nomatch h)

/-! ## Behaviour of the comment scan -/

/-- When every node of a part parses, the node loop appends the rendered
pairs in document order and raises nothing. -/
theorem processNodes_ok (nodes : List CommentNode)
    (h : ∀ c ∈ nodes, (parsePair c).isSome) :
    ∀ acc, processNodes nodes acc =
      (acc ++ nodes.filterMap (fun c => (parsePair c).map renderPair), true) := by
  induction nodes with
  | nil => intro acc; simp [processNodes]
  | cons c rest ih =>
    intro acc
    obtain ⟨p, hp⟩ := Option.isSome_iff_exists.1 (h c (List.mem_cons_self c rest))
    have hrest : ∀ x ∈ rest, (parsePair x).isSome :=
      fun x hx => h x (List.mem_cons_of_mem c hx)
    simp [processNodes, hp, ih hrest]

/-- When the node loop hits a node on which an ElementTree lookup fails, it
aborts keeping exactly the entries appended for the nodes before it. -/
theorem processNodes_fail (good : List CommentNode) (bad : CommentNode)
    (rest : List CommentNode) (hg : ∀ c ∈ good, (parsePair c).isSome)
    (hb : parsePair bad = none) :
    ∀ acc, processNodes (good ++ bad :: rest) acc =
      (acc ++ good.filterMap (fun c => (parsePair c).map renderPair), false) := by
  induction good with
  | nil => intro acc; simp [processNodes, hb]
  | cons c g ih =>
    intro acc
    obtain ⟨p, hp⟩ := Option.isSome_iff_exists.1 (hg c (List.mem_cons_self c g))
    have hrest : ∀ x ∈ g, (parsePair x).isSome :=
      fun x hx => hg x (List.mem_cons_of_mem c hx)
    simp [processNodes, hp, ih hrest]

theorem scanSlides_cons (zf : Package) (i : Nat) (r : List Nat)
    (acc : List (Nat × List String)) :
    scanSlides zf (i :: r) acc =
      match scanSlide zf i with
      | (cur, true) => scanSlides zf r (acc ++ [(i, cur)])
      | (cur, false) => (acc ++ [(i, cur)], false) := rfl

/-- The slide loop processes a concatenation left to right, stopping at the
first raised exception. -/
theorem scanSlides_append (zf : Package) (l₁ l₂ : List Nat) :
    ∀ acc, scanSlides zf (l₁ ++ l₂) acc =
      match scanSlides zf l₁ acc with
      | (a, true) => scanSlides zf l₂ a
      | (a, false) => (a, false) := by
  induction l₁ with
  | nil => intro acc; rfl
  | cons i r ih =>
    intro acc
    rw [List.cons_append, scanSlides_cons, scanSlides_cons]
    cases hscan : scanSlide zf i with
    | mk cur ok =>
      cases ok
      · rfl
      · exact ih (acc ++ [(i, cur)])

/-- A slide index never visited by the loop keeps whatever the dict already
associated to it. -/
theorem lookup_scanSlides_not_mem (zf : Package) (k : Nat) :
    ∀ (l : List Nat) (acc : List (Nat × List String)), k ∉ l →
      (scanSlides zf l acc).1.lookup k = acc.lookup k := by
  intro l
  induction l with
  | nil => intro acc _; rfl
  | cons i r ih =>
    intro acc h
    have hki : k ≠ i := fun e => h (e ▸ List.mem_cons_self i r)
    have hkr : k ∉ r := fun e => h (List.mem_cons_of_mem i e)
    have hbeq : (k == i) = false := beq_eq_false_iff_ne.mpr hki
    rw [scanSlides_cons]
    cases hscan : scanSlide zf i with
    | mk cur ok =>
      cases ok
      · show (acc ++ [(i, cur)]).lookup k = acc.lookup k
        simp [List.lookup_append, List.lookup_cons, hbeq]
      · show (scanSlides zf r (acc ++ [(i, cur)])).1.lookup k = acc.lookup k
        rw [ih (acc ++ [(i, cur)]) hkr]
        simp [List.lookup_append, List.lookup_cons, hbeq]

/-- Once the loop reaches slide `j` without an earlier exception, the
dict's entry for `j` is exactly what processing slide `j` produced, no
matter what happens on later slides. -/
theorem lookup_scanSlides_found (zf : Package) (j : Nat) (l₁ l₂ : List Nat)
    (h₁ : j ∉ l₁) (h₂ : j ∉ l₂)
    (hok : (scanSlides zf l₁ []).2 = true) :
    (scanSlides zf (l₁ ++ j :: l₂) []).1.lookup j = some (scanSlide zf j).1 := by
  rw [scanSlides_append]
  have ha : (scanSlides zf l₁ []).1.lookup j = none := by
    rw [lookup_scanSlides_not_mem zf j l₁ [] h₁]; rfl
  cases hs : scanSlides zf l₁ [] with
  | mk a ok =>
    rw [hs] at hok ha
    cases ok with
    | false => exact absurd hok (by simp)
    | true =>
      show (scanSlides zf (j :: l₂) a).1.lookup j = some (scanSlide zf j).1
      rw [scanSlides_cons]
      cases hj : scanSlide zf j with
      | mk cur ok' =>
        cases ok'
        · show (a ++ [(j, cur)]).lookup j = some cur
          simp [List.lookup_append, ha, List.lookup_cons]
        · show (scanSlides zf l₂ (a ++ [(j, cur)])).1.lookup j = some cur
          rw [lookup_scanSlides_not_mem zf j l₂ _ h₂]
          simp [List.lookup_append, ha, List.lookup_cons]

/-- Splitting the loop's index range `1..N` around a slide `j`. -/
theorem range'_split (j N : Nat) (h1 : 1 ≤ j) (h2 : j ≤ N) :
    List.range' 1 N = List.range' 1 (j - 1) ++ j :: List.range' (j + 1) (N - j) :=
  calc List.range' 1 N = List.range' 1 ((N - j + 1) + (j - 1)) := by
        rw [show (N - j + 1) + (j - 1) = N by omega]
    _ = List.range' 1 (j - 1) ++ List.range' (1 + (j - 1)) (N - j + 1) :=
        (List.range'_append_1 1 (j - 1) (N - j + 1)).symm
    _ = List.range' 1 (j - 1) ++ List.range' j (N - j + 1) := by
        rw [show 1 + (j - 1) = j by omega]
    _ = List.range' 1 (j - 1) ++ (j :: List.range' (j + 1) (N - j)) := by
        rw [List.range'_succ]

/-- Processing one slide whose rel part lists a single comment target whose
part parses completely: all pairs are collected, in order, no exception. -/
theorem scanSlide_single_ok (zf : Package) (j : Nat) (t : String)
    (nodes : List CommentNode)
    (hrel : zf.relFile j = some (Except.ok [t]))
    (hsub : containsSub "comments" t = true)
    (hcf : zf.commentFile ("ppt/comments/" ++ basename t) = some (Except.ok nodes))
    (hparse : ∀ c ∈ nodes, (parsePair c).isSome) :
    scanSlide zf j = (nodes.filterMap (fun c => (parsePair c).map renderPair), true) := by
  unfold scanSlide
  rw [hrel]
  show processTargets zf [t] [] = _
  unfold processTargets
  rw [hsub, hcf]
  simp only [if_true]
  rw [processNodes_ok nodes hparse []]
  rfl

/-- Processing one slide whose single comment part fails partway through
its node list: the pairs before the failing node are kept and the
exception flag is raised. -/
theorem scanSlide_single_fail (zf : Package) (j : Nat) (t : String)
    (good : List CommentNode) (bad : CommentNode) (rest : List CommentNode)
    (hrel : zf.relFile j = some (Except.ok [t]))
    (hsub : containsSub "comments" t = true)
    (hcf : zf.commentFile ("ppt/comments/" ++ basename t) =
      some (Except.ok (good ++ bad :: rest)))
    (hgood : ∀ c ∈ good, (parsePair c).isSome)
    (hbad : parsePair bad = none) :
    scanSlide zf j = (good.filterMap (fun c => (parsePair c).map renderPair), false) := by
  unfold scanSlide
  rw [hrel]
  show processTargets zf [t] [] = _
  unfold processTargets
  rw [hsub, hcf]
  simp only [if_true]
  rw [processNodes_fail good bad rest hgood hbad []]
  rfl

/-- C6: the comments of a slide whose comment part parses completely are
the rendered `(author, text)` pairs of the part's comment nodes in exactly
their document order (`filterMap` walks the node list left to right; no
re-sorting happens anywhere). -/
theorem extract_comments_document_order (zf : Package) (j : Nat) (t : String)
    (nodes : List CommentNode)
    (h1 : 1 ≤ j) (h2 : j ≤ zf.slides.length)
    (hrel : zf.relFile j = some (Except.ok [t]))
    (hsub : containsSub "comments" t = true)
    (hcf : zf.commentFile ("ppt/comments/" ++ basename t) = some (Except.ok nodes))
    (hparse : ∀ c ∈ nodes, (parsePair c).isSome)
    (hprev : (scanSlides zf (List.range' 1 (j - 1)) []).2 = true) :
    ∃ slide, zf.slides[j - 1]? = some slide ∧
      (extract_text_from_pptx zf true)[j - 1]? =
        some (j, bodyText slide,
          nodes.filterMap (fun c => (parsePair c).map renderPair)) := by
  have hij : j - 1 < zf.slides.length := by omega
  refine ⟨zf.slides[j - 1], List.getElem?_eq_getElem hij, ?_⟩
  have hlookup : (allComments zf true).lookup j =
      some (nodes.filterMap (fun c => (parsePair c).map renderPair)) := by
    show (scanSlides zf (List.range' 1 zf.slides.length) []).1.lookup j = _
    rw [range'_split j zf.slides.length h1 h2,
      lookup_scanSlides_found zf j _ _
        (by simp only [List.mem_range'_1, not_and, not_lt]; omega)
        (by simp only [List.mem_range'_1, not_and, not_lt]; omega) hprev,
      scanSlide_single_ok zf j t nodes hrel hsub hcf hparse]
  unfold extract_text_from_pptx
  rw [List.getElem?_map, List.enum_eq_enumFrom, List.getElem?_enumFrom,
    List.getElem?_eq_getElem hij]
  have hjj : j - 1 + 1 = j := by omega
  simp [hjj, hlookup]

/-- A one-slide package whose slide links one comment part listing Alice's
comment before Bob's. -/
def alicePkg : Package :=
  { slides := [{ shapes := [], notes := none }],
    relFile := fun i => if i = 1 then some (Except.ok ["../comments/comment1.xml"]) else none,
    commentFile := fun p =>
      if p = "ppt/comments/comment1.xml" then
        some (Except.ok
          [{ textElem := some (some "Looks good"), authorElem := some (some "Alice") },
           { textElem := some (some "Fix typo"), authorElem := some (some "Bob") }])
      else none }

/-- C6 witness: on `alicePkg` the document-order theorem yields Alice's
comment before Bob's. -/
theorem extract_comments_document_order_witness :
    ∃ slide, alicePkg.slides[1 - 1]? = some slide ∧
      (extract_text_from_pptx alicePkg true)[1 - 1]? =
        some (1, bodyText slide, ["Alice: Looks good", "Bob: Fix typo"]) :=
  extract_comments_document_order alicePkg 1 "../comments/comment1.xml"
    [{ textElem := some (some "Looks good"), authorElem := some (some "Alice") },
     { textElem := some (some "Fix typo"), authorElem := some (some "Bob") }]
    (by decide) (by decide) rfl (by decide) rfl (by decide) rfl

/-- When the scan reaches slide `j` cleanly and slide `j` raises, the whole
scan stops there: the dict holds the entries of the earlier slides plus
slide `j`'s partial entry, and the exception flag is set. -/
theorem scanSlides_fail_at (zf : Package) (j N : Nat) (h1 : 1 ≤ j) (h2 : j ≤ N)
    (hprev : (scanSlides zf (List.range' 1 (j - 1)) []).2 = true)
    (hfail : (scanSlide zf j).2 = false) :
    scanSlides zf (List.range' 1 N) [] =
      ((scanSlides zf (List.range' 1 (j - 1)) []).1 ++ [(j, (scanSlide zf j).1)],
        false) := by
  rw [range'_split j N h1 h2, scanSlides_append]
  cases hs : scanSlides zf (List.range' 1 (j - 1)) [] with
  | mk a ok =>
    rw [hs] at hprev
    cases ok with
    | false => exact absurd hprev (by simp)
    | true =>
      show scanSlides zf (j :: List.range' (j + 1) (N - j)) a = (a ++ [(j, (scanSlide zf j).1)], false)
      rw [scanSlides_cons]
      cases hj : scanSlide zf j with
      | mk cur ok' =>
        rw [hj] at hfail
        cases ok' with
        | true => exact absurd hfail (by simp)
        | false => rfl

/-- C10: absorption of a comment-resolution failure is neither atomic nor
isolated to the failing slide.  If the node scan of slide `j`'s comment
part raises partway through, the run's warning is emitted, slide `j`'s
record keeps exactly the comment entries appended before the failing node
(a partial prefix), and every slide after `j` gets an empty comment
list — because the single `except` wraps the entire per-slide loop. -/
theorem comment_failure_partial_prefix (zf : Package) (j : Nat) (t : String)
    (good : List CommentNode) (bad : CommentNode) (rest : List CommentNode)
    (h1 : 1 ≤ j) (h2 : j ≤ zf.slides.length)
    (hrel : zf.relFile j = some (Except.ok [t]))
    (hsub : containsSub "comments" t = true)
    (hcf : zf.commentFile ("ppt/comments/" ++ basename t) =
      some (Except.ok (good ++ bad :: rest)))
    (hgood : ∀ c ∈ good, (parsePair c).isSome)
    (hbad : parsePair bad = none)
    (hprev : (scanSlides zf (List.range' 1 (j - 1)) []).2 = true) :
    commentWarning zf true = true ∧
    ∀ r ∈ extract_text_from_pptx zf true,
      (r.1 = j → r.2.2 = good.filterMap (fun c => (parsePair c).map renderPair)) ∧
      (j < r.1 → r.2.2 = []) := by
  have hslide := scanSlide_single_fail zf j t good bad rest hrel hsub hcf hgood hbad
  have hscan := scanSlides_fail_at zf j zf.slides.length h1 h2 hprev (by rw [hslide])
  have hwarn : commentWarning zf true = true := by
    unfold commentWarning
    rw [hscan]
    rfl
  have hlookupj : (allComments zf true).lookup j =
      some (good.filterMap (fun c => (parsePair c).map renderPair)) := by
    show (scanSlides zf (List.range' 1 zf.slides.length) []).1.lookup j = _
    rw [hscan]
    have ha : (scanSlides zf (List.range' 1 (j - 1)) []).1.lookup j = none := by
      rw [lookup_scanSlides_not_mem zf j _ []
        (by simp only [List.mem_range'_1, not_and, not_lt]; omega)]
      rfl
    simp [List.lookup_append, ha, List.lookup_cons, hslide]
  have hlookupgt : ∀ k, j < k → (allComments zf true).lookup k = none := by
    intro k hk
    show (scanSlides zf (List.range' 1 zf.slides.length) []).1.lookup k = _
    rw [hscan]
    have ha : (scanSlides zf (List.range' 1 (j - 1)) []).1.lookup k = none := by
      rw [lookup_scanSlides_not_mem zf k _ []
        (by simp only [List.mem_range'_1, not_and, not_lt]; omega)]
      rfl
    have hbeq : (k == j) = false := beq_eq_false_iff_ne.mpr (by omega)
    simp [List.lookup_append, ha, List.lookup_cons, hbeq]
  refine ⟨hwarn, ?_⟩
  intro r hr
  simp only [extract_text_from_pptx, List.mem_map] at hr
  obtain ⟨p, -, rfl⟩ := hr
  constructor
  · intro hpj
    simp only at hpj
    show ((allComments zf true).lookup (p.1 + 1)).getD [] = _
    rw [hpj, hlookupj]
    rfl
  · intro hpj
    simp only at hpj
    show ((allComments zf true).lookup (p.1 + 1)).getD [] = []
    rw [hlookupgt (p.1 + 1) hpj]
    rfl

/-- A two-slide package whose first slide's comment part parses its first
node (Alice) and then raises on a node with no author element. -/
def failPkg : Package :=
  { slides := [{ shapes := [], notes := none }, { shapes := [], notes := none }],
    relFile := fun i => if i = 1 then some (Except.ok ["../comments/comment1.xml"]) else none,
    commentFile := fun p =>
      if p = "ppt/comments/comment1.xml" then
        some (Except.ok
          [{ textElem := some (some "hi"), authorElem := some (some "Alice") },
           { textElem := some (some "dropped"), authorElem := none }])
      else none }

/-- C10 witness: on `failPkg`, slide 1 keeps Alice's comment (the prefix
before the failing node) and slide 2's comment list is empty. -/
theorem comment_failure_partial_prefix_witness :
    commentWarning failPkg true = true ∧
    ∀ r ∈ extract_text_from_pptx failPkg true,
      (r.1 = 1 → r.2.2 = ["Alice: hi"]) ∧
      (1 < r.1 → r.2.2 = []) :=
  comment_failure_partial_prefix failPkg 1 "../comments/comment1.xml"
    [{ textElem := some (some "hi"), authorElem := some (some "Alice") }]
    { textElem := some (some "dropped"), authorElem := none } []
    (by decide) (by decide) rfl (by decide) rfl (by decide) rfl rfl

/-- C3 counterexample: on `failPkg` the comment scan fails while processing
slide 1, the warning is emitted — yet slide 1's comment list is
`["Alice: hi"]`, not the empty list the claim requires for the affected
slide. -/
theorem comment_failure_nonempty_counterexample :
    commentWarning failPkg true = true ∧
    (extract_text_from_pptx failPkg true)[0]? = some (1, "", ["Alice: hi"]) ∧
    (["Alice: hi"] : List String) ≠ [] := by
  refine ⟨rfl, rfl, by decide⟩

/-- C3 (amended): a failure while processing slide `j`'s comments does not
abort the run and does not raise: the warning is printed to stderr, every
slide's record is still produced, slide numbers and body text are exactly
those of a run with comments disabled, slide `j` keeps the comment entries
appended before the failure (not necessarily an empty list), and every
later slide's comment list is empty. -/
theorem comment_failure_no_abort (zf : Package) (j : Nat)
    (h1 : 1 ≤ j) (h2 : j ≤ zf.slides.length)
    (hprev : (scanSlides zf (List.range' 1 (j - 1)) []).2 = true)
    (hfailj : (scanSlide zf j).2 = false) :
    commentWarning zf true = true ∧
    (extract_text_from_pptx zf true).length = zf.slides.length ∧
    (extract_text_from_pptx zf true).map (fun r => (r.1, r.2.1)) =
      (extract_text_from_pptx zf false).map (fun r => (r.1, r.2.1)) ∧
    ∀ r ∈ extract_text_from_pptx zf true,
      (r.1 = j → r.2.2 = (scanSlide zf j).1) ∧ (j < r.1 → r.2.2 = []) := by
  have hscan := scanSlides_fail_at zf j zf.slides.length h1 h2 hprev hfailj
  refine ⟨?_, ?_, ?_, ?_⟩
  · unfold commentWarning
    rw [hscan]
    rfl
  · simp [extract_text_from_pptx]
  · show (List.map _ (List.map _ zf.slides.enum)) = (List.map _ (List.map _ zf.slides.enum))
    rw [List.map_map, List.map_map]
    rfl
  · have hlookupj : (allComments zf true).lookup j = some (scanSlide zf j).1 := by
      show (scanSlides zf (List.range' 1 zf.slides.length) []).1.lookup j = _
      rw [hscan]
      have ha : (scanSlides zf (List.range' 1 (j - 1)) []).1.lookup j = none := by
        rw [lookup_scanSlides_not_mem zf j _ []
          (by simp only [List.mem_range'_1, not_and, not_lt]; omega)]
        rfl
      simp [List.lookup_append, ha, List.lookup_cons]
    have hlookupgt : ∀ k, j < k → (allComments zf true).lookup k = none := by
      intro k hk
      show (scanSlides zf (List.range' 1 zf.slides.length) []).1.lookup k = _
      rw [hscan]
      have ha : (scanSlides zf (List.range' 1 (j - 1)) []).1.lookup k = none := by
        rw [lookup_scanSlides_not_mem zf k _ []
          (by simp only [List.mem_range'_1, not_and, not_lt]; omega)]
        rfl
      have hbeq : (k == j) = false := beq_eq_false_iff_ne.mpr (by omega)
      simp [List.lookup_append, ha, List.lookup_cons, hbeq]
    intro r hr
    simp only [extract_text_from_pptx, List.mem_map] at hr
    obtain ⟨p, -, rfl⟩ := hr
    constructor
    · intro hpj
      simp only at hpj
      show ((allComments zf true).lookup (p.1 + 1)).getD [] = _
      rw [hpj, hlookupj]
      rfl
    · intro hpj
      simp only at hpj
      show ((allComments zf true).lookup (p.1 + 1)).getD [] = []
      rw [hlookupgt (p.1 + 1) hpj]
      rfl

/-- C3 (amended) witness: the no-abort theorem applied to `failPkg` at its
failing slide 1. -/
theorem comment_failure_no_abort_witness :
    commentWarning failPkg true = true ∧
    (extract_text_from_pptx failPkg true).length = failPkg.slides.length ∧
    (extract_text_from_pptx failPkg true).map (fun r => (r.1, r.2.1)) =
      (extract_text_from_pptx failPkg false).map (fun r => (r.1, r.2.1)) ∧
    ∀ r ∈ extract_text_from_pptx failPkg true,
      (r.1 = 1 → r.2.2 = (scanSlide failPkg 1).1) ∧ (1 < r.1 → r.2.2 = []) :=
  comment_failure_no_abort failPkg 1 (by decide) (by decide) rfl rfl

/-- A one-slide package whose only comment node has a body text element but
no author element at all (absent author list). -/
def noAuthorPkg : Package :=
  { slides := [{ shapes := [], notes := none }],
    relFile := fun i => if i = 1 then some (Except.ok ["../comments/comment1.xml"]) else none,
    commentFile := fun p =>
      if p = "ppt/comments/comment1.xml" then
        some (Except.ok [{ textElem := some (some "hi"), authorElem := none }])
      else none }

/-- A one-slide package whose only comment node has an empty text element
and an author element without a `name` attribute — the cases the code does
default. -/
def defaultsPkg : Package :=
  { slides := [{ shapes := [], notes := none }],
    relFile := fun i => if i = 1 then some (Except.ok ["../comments/comment1.xml"]) else none,
    commentFile := fun p =>
      if p = "ppt/comments/comment1.xml" then
        some (Except.ok [{ textElem := some none, authorElem := some none }])
      else none }

/-- C4 counterexample: a comment node whose author list is absent does not
default to "Unknown Author" — the attribute lookup on the absent element
raises (`parsePair` has no result), the failure is absorbed by the scan's
wrapper, and the slide ends with no comments instead of
`["Unknown Author: hi"]`. -/
theorem author_default_counterexample :
    parsePair { textElem := some (some "hi"), authorElem := none } = none ∧
    (extract_text_from_pptx noAuthorPkg true)[0]? = some (1, "", []) ∧
    commentWarning noAuthorPkg true = true :=
  ⟨rfl, rfl, rfl⟩

/-- C4 (amended): when both the text element and the first author element
are present, the body text defaults to `""` for an empty element and the
author defaults to "Unknown Author" for a missing `name` attribute — the
pair `("Unknown Author", "")` end to end; but when the text element or the
author element is absent (author list absent or empty), the node's
processing raises instead of defaulting, to be absorbed by the scan's
wrapper. -/
theorem parsePair_defaults (t a : Option String) (x : Option (Option String)) :
    parsePair { textElem := some t, authorElem := some a } =
      some (a.getD "Unknown Author", t.getD "") ∧
    parsePair { textElem := some t, authorElem := none } = none ∧
    parsePair { textElem := none, authorElem := x } = none ∧
    (extract_text_from_pptx defaultsPkg true)[0]? =
      some (1, "", ["Unknown Author: "]) :=
  ⟨rfl, rfl, rfl, rfl⟩

/-- C9: an input that cannot be opened as a valid package fails with the
`FormatError` propagated to the caller — the run aborts before any
per-slide processing, instead of the failure being absorbed by the
best-effort comment handling; on a successfully opened package the
extraction is total. -/
theorem formatError_propagates :
    (∀ e ic, runExtraction (Except.error e) ic = Except.error e) ∧
    ∀ zf ic, runExtraction (Except.ok zf) ic =
      Except.ok (extract_text_from_pptx zf ic) :=
  ⟨fun _ _ => rfl, fun _ _ => rfl⟩
